import Mathlib

/-!
# Verification of `duck::SmallUniquePtr` (src/duck/small_unique_ptr.h)

Shallow embedding of the small-buffer-optimized polymorphic owning pointer.

Modelling choices, justified against the source:
* A payload object is abstracted by its static size, alignment, and one
  observable value (the state a derived class would carry).
* The heap is a `World`: a fresh-pointer counter, the association list of live
  heap blocks (each with its allocation size and the optionally-constructed
  object it holds — `::operator new` yields raw storage, placement-new fills
  it), and a running allocation counter used to observe "no allocation".
* A box (`SmallUniquePtr<T, StorageSize>`) carries its `storage_size` and
  `storage_align` compile-time parameters as fields, the live object sitting
  in its `inline_storage_` buffer (if any), and `data_` as an `Option Loc`:
  `none` is the null sentinel, `Loc.inlineLoc` means `data_` points inside
  `inline_storage_` (the address-range containment test of `is_inline`,
  lines 173-183, is embedded as this location discriminant), and `Loc.heap p`
  means `data_` points at the object in heap block `p`.
* A constructible payload type `U` is a `PayloadType`: size, alignment, and
  the result of running its constructor — `some v` for a successful
  construction producing observable value `v`, `none` for a constructor that
  throws. Operations that can throw return a `Bool` success flag: `false`
  means the exception propagated to the caller.
* The virtual `small_unique_ptr_move` relocation (lines 46-53 and 193-200)
  move-constructs the same concrete object at the target storage, so the
  observable value is preserved; `move_to` is embedded as handing the payload
  to the caller-chosen storage and emptying the source. The static_asserts
  (relocatable capability, derivation from T) are compile-time and have no
  runtime embedding.
-/

namespace Duck

abbrev Ptr := Nat

/-- Observable abstraction of a constructed payload object `U <: T`. -/
structure Payload where
  size : Nat
  align : Nat
  value : Nat
deriving DecidableEq, Repr

/-- One heap block produced by `::operator new`: its allocation size and the
object constructed in it (`none` while the storage is raw). -/
structure Block where
  size : Nat
  obj : Option Payload
deriving DecidableEq, Repr

/-- The allocator state: fresh-pointer source, live blocks, allocation count. -/
structure World where
  nextPtr : Ptr
  heapLive : List (Ptr × Block)
  allocCount : Nat
deriving DecidableEq, Repr

/-- Where `data_` points: inside this box's `inline_storage_` buffer, or at a
heap block. `data_ = nullptr` is modelled as `Option Loc` being `none`. -/
inductive Loc where
  | inlineLoc : Loc
  | heap : Ptr → Loc
deriving DecidableEq, Repr

/-- State of one `SmallUniquePtr<T, StorageSize>` (lines 55-263). -/
structure Box where
  storage_size : Nat
  storage_align : Nat
  inlineObj : Option Payload
  data : Option Loc
deriving DecidableEq, Repr

/-- A payload type `U` to construct in place: static size and alignment, and
the outcome of its constructor (`none` models a throwing constructor). -/
structure PayloadType where
  size : Nat
  align : Nat
  construct : Option Nat
deriving DecidableEq, Repr

/-! ## Heap primitives -/

/-- Lookup of a live heap block (first entry with the key). -/
def findBlock : List (Ptr × Block) → Ptr → Option Block
  | [], _ => none
  | e :: t, p => if e.1 = p then some e.2 else findBlock t p

/-- `::operator delete` / `delete`: remove the (first) block with this key. -/
def eraseBlock : List (Ptr × Block) → Ptr → List (Ptr × Block)
  | [], _ => []
  | e :: t, q => if e.1 = q then t else e :: eraseBlock t q

/-- Placement-construction of a payload into the block with this key. -/
def writeBlock : List (Ptr × Block) → Ptr → Payload → List (Ptr × Block)
  | [], _, _ => []
  | e :: t, p, pl => if e.1 = p then (e.1, ⟨e.2.size, some pl⟩) :: t
                     else e :: writeBlock t p pl

def heapFind (w : World) (p : Ptr) : Option Block :=
  findBlock w.heapLive p

/-- `p` is a live heap block holding a constructed object. -/
def isLiveObj (w : World) (p : Ptr) : Bool :=
  match heapFind w p with
  | some blk => blk.obj.isSome
  | none => false

/-- `::operator new (sz)` (create_storage_helper false branch, lines 213-215):
returns a fresh pointer to raw storage and bumps the allocation count. -/
def allocRaw (w : World) (sz : Nat) : World × Ptr :=
  (⟨w.nextPtr + 1, (w.nextPtr, ⟨sz, none⟩) :: w.heapLive, w.allocCount + 1⟩,
   w.nextPtr)

def heapFree (w : World) (q : Ptr) : World :=
  { w with heapLive := eraseBlock w.heapLive q }

def heapWrite (w : World) (p : Ptr) (pl : Payload) : World :=
  { w with heapLive := writeBlock w.heapLive p pl }

/-! ## Box operations, translated from the source -/

/-- Default / nullptr constructor (lines 85-86): empty box. -/
def mkBox (ss sa : Nat) : Box :=
  ⟨ss, sa, none, none⟩

/-- Pointer-adopting constructor (line 87): `data_ = p`, heap-owned. -/
def ctorPtr (ss sa : Nat) (p : Ptr) : Box :=
  ⟨ss, sa, none, some (Loc.heap p)⟩

/-- `get()` (line 167). -/
def get (b : Box) : Option Loc :=
  b.data

/-- `operator bool()` (line 168). -/
def toBool (b : Box) : Bool :=
  b.data.isSome

/-- `is_inline()` (lines 173-183): the address-range containment test
`&inline_storage_ <= data_ < &inline_storage_ + storage_size`, embedded as
the location discriminant. -/
def is_inline (b : Box) : Bool :=
  b.data = some Loc.inlineLoc

/-- `is_allocated()` (line 184). -/
def is_allocated (b : Box) : Bool :=
  !is_inline b

/-- `BuildInline<Size, Align>` (lines 207-208):
`Size <= storage_size && Align <= storage_align`. -/
def buildInline (ss sa size align : Nat) : Bool :=
  decide (size ≤ ss) && decide (align ≤ sa)

/-- `reset()` (lines 135-143): `delete data_` if allocated, in-place destructor
call if inline, then `data_ = nullptr`; no-op when already null. -/
def reset (w : World) (b : Box) : World × Box :=
  match b.data with
  | none => (w, b)
  | some Loc.inlineLoc => (w, { b with inlineObj := none, data := none })
  | some (Loc.heap p) => (heapFree w p, { b with data := none })

/-- `reset(pointer p)` (lines 144-147): `reset(); data_ = p`. -/
def resetPtr (w : World) (b : Box) (p : Ptr) : World × Box :=
  let r := reset w b
  (r.1, { r.2 with data := some (Loc.heap p) })

/-- `build<U>(args...)` (lines 237-244): acquire storage chosen by
`BuildTypeInline<U>`, guarded by `DestroyPointerAtEndOfScope` (lines 14-32),
placement-construct `U`, and commit `data_` only on success. The returned
`Bool` is `false` when the constructor threw (the guard then runs
`destroy_storage<U>`, lines 229-235, and the exception propagates). -/
def build (u : PayloadType) (w : World) (b : Box) : World × Box × Bool :=
  if buildInline b.storage_size b.storage_align u.size u.align then
    -- create_storage_helper true branch (line 212): &inline_storage_
    match u.construct with
    | some v =>
        (w, { b with inlineObj := some ⟨u.size, u.align, v⟩,
                     data := some Loc.inlineLoc }, true)
    | none =>
        -- destroy_storage_helper true branch (line 232): nothing to free
        (w, b, false)
  else
    let a := allocRaw w u.size
    match u.construct with
    | some v =>
        (heapWrite a.1 a.2 ⟨u.size, u.align, v⟩,
         { b with data := some (Loc.heap a.2) }, true)
    | none =>
        -- destroy_storage_helper false branch (lines 233-235): operator delete
        (heapFree a.1 a.2, b, false)

/-- `emplace<U>(args...)` (lines 156-159): `reset(); build<U>(...)`.
`reset(in_place_type_t<U>, args...)` (lines 148-154) delegates here. -/
def emplace (u : PayloadType) (w : World) (b : Box) : World × Box × Bool :=
  let r := reset w b
  build u r.1 r.2

/-- In-place constructor (lines 95-97): `build<U>` on a fresh box. -/
def ctorInPlace (u : PayloadType) (ss sa : Nat) (w : World) :
    World × Box × Bool :=
  build u w (mkBox ss sa)

/-- `move_to(storage)` (lines 193-200): virtual
`data_->small_unique_ptr_move(storage)` move-constructs the payload at the
caller-chosen storage, the original is destroyed in place, `data_ = nullptr`.
Embedded as yielding the payload for the caller to place, plus the emptied
source box. -/
def move_to (b : Box) : Option Payload × Box :=
  (b.inlineObj, { b with inlineObj := none, data := none })

/-- `move_from_other(other)` (lines 245-259): empty source is a no-op;
an allocated source has its pointer stolen (`release_pointer_unsafe`,
lines 187-192); an inline source is relocated into storage obtained by
`create_storage_for_move` (lines 223-226), which tests
`BuildInline<FromPtr::storage_size, FromPtr::storage_align>` against the
destination's own capacity. Returns (world, destination, source). -/
def move_from_other (w : World) (dst src : Box) : World × Box × Box :=
  match src.data with
  | none => (w, dst, src)
  | some (Loc.heap p) =>
      (w, { dst with data := some (Loc.heap p) }, { src with data := none })
  | some Loc.inlineLoc =>
      let m := move_to src
      if buildInline dst.storage_size dst.storage_align
                     src.storage_size src.storage_align then
        (w, { dst with inlineObj := m.1, data := some Loc.inlineLoc }, m.2)
      else
        let a := allocRaw w src.storage_size
        let w2 := match m.1 with
                  | some pl => heapWrite a.1 a.2 pl
                  | none => a.1
        (w2, { dst with data := some (Loc.heap a.2) }, m.2)

/-- Move constructor (lines 90-93): `move_from_other` into a fresh box. -/
def moveCtor (ss sa : Nat) (w : World) (src : Box) : World × Box × Box :=
  move_from_other w (mkBox ss sa) src

/-- Move assignment (lines 106-111): `reset(); move_from_other(other)`. -/
def moveAssign (w : World) (dst src : Box) : World × Box × Box :=
  let r := reset w dst
  move_from_other r.1 r.2 src

/-- `release()` (lines 122-134): null for an empty box; direct pointer return
for an allocated payload; for an inline payload, `::operator new
(storage_size)` then `move_to` onto the fresh block, returning that pointer. -/
def release (w : World) (b : Box) : World × Box × Option Ptr :=
  match b.data with
  | none => (w, b, none)
  | some (Loc.heap p) => (w, { b with data := none }, some p)
  | some Loc.inlineLoc =>
      let a := allocRaw w b.storage_size
      let m := move_to b
      let w2 := match m.1 with
                | some pl => heapWrite a.1 a.2 pl
                | none => a.1
      (w2, m.2, some a.2)

/-- The observable value reported through the box's pointer (`get()->f()`). -/
def readValue (w : World) (b : Box) : Option Nat :=
  match b.data with
  | none => none
  | some Loc.inlineLoc => b.inlineObj.map Payload.value
  | some (Loc.heap p) =>
      match heapFind w p with
      | some blk => blk.obj.map Payload.value
      | none => none

/-! ## The ownership invariant and the public-operation step relation -/

/-- The box invariant (spec section 3): at most one live payload per box;
`data_` is either the null sentinel (and then no object lives in the inline
buffer), or points to the live object in the inline buffer, or points to a
live constructed heap block while the inline buffer holds no object —
never both, never neither while non-null. -/
def boxInv (w : World) (b : Box) : Bool :=
  match b.data with
  | none => b.inlineObj.isNone
  | some Loc.inlineLoc => b.inlineObj.isSome
  | some (Loc.heap p) => b.inlineObj.isNone && isLiveObj w p

/-- Two boxes do not own the same heap block (exclusive ownership; distinct
boxes produced by the public API never alias). -/
def noAlias (a b : Box) : Bool :=
  match a.data, b.data with
  | some (Loc.heap p), some (Loc.heap q) => p != q
  | _, _ => true

/-- One public mutating operation on a box, as a step on (world, box).
Pointer adoption requires the adopted pointer to be a live heap object not
owned by the box itself (the source asserts/assumes heap ownership); moving
from another box requires that box to satisfy the invariant and not alias. -/
inductive Step : World × Box → World × Box → Prop where
  | stepReset (w : World) (b : Box) :
      Step (w, b) (reset w b)
  | stepResetPtr (w : World) (b : Box) (p : Ptr)
      (hp : isLiveObj w p = true) (hna : b.data ≠ some (Loc.heap p)) :
      Step (w, b) (resetPtr w b p)
  | stepEmplace (w : World) (b : Box) (u : PayloadType) :
      Step (w, b) ((emplace u w b).1, (emplace u w b).2.1)
  | stepRelease (w : World) (b : Box) :
      Step (w, b) ((release w b).1, (release w b).2.1)
  | stepMoveAssign (w : World) (b src : Box)
      (hsrc : boxInv w src = true) (hna : noAlias b src = true) :
      Step (w, b) ((moveAssign w b src).1, (moveAssign w b src).2.1)

/-- The ways a box comes into existence (public constructors). -/
inductive Init : World × Box → Prop where
  | initDefault (w : World) (ss sa : Nat) :
      Init (w, mkBox ss sa)
  | initPtr (w : World) (ss sa : Nat) (p : Ptr) (hp : isLiveObj w p = true) :
      Init (w, ctorPtr ss sa p)
  | initInPlace (u : PayloadType) (ss sa : Nat) (w : World) :
      Init ((ctorInPlace u ss sa w).1, (ctorInPlace u ss sa w).2.1)
  | initMove (ss sa : Nat) (w : World) (src : Box)
      (hsrc : boxInv w src = true) :
      Init ((moveCtor ss sa w src).1, (moveCtor ss sa w src).2.1)

/-! ## Helper lemmas -/

theorem findBlock_eraseBlock_ne (l : List (Ptr × Block)) (p q : Ptr)
    (h : p ≠ q) : findBlock (eraseBlock l q) p = findBlock l p := by
  induction l with
  | nil => rfl
  | cons e t ih =>
      by_cases hq : e.1 = q
      · simp only [eraseBlock, if_pos hq, findBlock]
        rw [if_neg (by rw [hq]; exact fun hc => h hc.symm)]
      · simp only [eraseBlock, if_neg hq, findBlock]
        by_cases hp : e.1 = p
        · rw [if_pos hp, if_pos hp]
        · rw [if_neg hp, if_neg hp, ih]

theorem isLiveObj_heapFree_ne (w : World) (p q : Ptr) (h : p ≠ q) :
    isLiveObj (heapFree w q) p = isLiveObj w p := by
  simp only [isLiveObj, heapFind, heapFree]
  rw [findBlock_eraseBlock_ne w.heapLive p q h]

theorem findBlock_write_head (l : List (Ptr × Block)) (p : Ptr) (sz : Nat)
    (pl : Payload) :
    findBlock (writeBlock ((p, ⟨sz, none⟩) :: l) p pl) p
      = some ⟨sz, some pl⟩ := by
  simp [writeBlock, findBlock]

/-- A freshly allocated-and-constructed block is a live object. -/
theorem isLiveObj_alloc_write (w : World) (sz : Nat) (pl : Payload) :
    isLiveObj (heapWrite (allocRaw w sz).1 (allocRaw w sz).2 pl)
      (allocRaw w sz).2 = true := by
  simp [isLiveObj, heapFind, heapWrite, allocRaw, findBlock_write_head]

/-- Under the invariant, `reset` leaves the box indistinguishable from a
default-constructed one. -/
theorem reset_eq_mkBox (w : World) (b : Box) (h : boxInv w b = true) :
    (reset w b).2 = mkBox b.storage_size b.storage_align := by
  cases b with
  | mk ss sa io d =>
      cases d with
      | none =>
          simp only [boxInv, Option.isNone_iff_eq_none] at h
          simp [reset, mkBox, h]
      | some loc =>
          cases loc with
          | inlineLoc => simp [reset, mkBox]
          | heap p =>
              simp only [boxInv, Bool.and_eq_true,
                Option.isNone_iff_eq_none] at h
              simp [reset, mkBox, h.1]

/-- `reset` leaves the world untouched except possibly freeing the box's own
heap block. -/
theorem isLiveObj_reset (w : World) (b : Box) (p : Ptr)
    (h : b.data ≠ some (Loc.heap p)) :
    isLiveObj (reset w b).1 p = isLiveObj w p := by
  cases b with
  | mk ss sa io d =>
      cases d with
      | none => rfl
      | some loc =>
          cases loc with
          | inlineLoc => rfl
          | heap q =>
              simp only [reset]
              exact isLiveObj_heapFree_ne w p q (fun hpq => h (by rw [hpq]))

/-- `build` run on an empty box yields a box satisfying the invariant. -/
theorem build_boxInv (u : PayloadType) (w : World) (b : Box)
    (hd : b.data = none) (hio : b.inlineObj = none) :
    boxInv (build u w b).1 (build u w b).2.1 = true := by
  by_cases hbi : buildInline b.storage_size b.storage_align u.size u.align
  · cases hc : u.construct with
    | some v => simp [build, if_pos hbi, hc, boxInv]
    | none => simp [build, if_pos hbi, hc, boxInv, hd, hio]
  · cases hc : u.construct with
    | some v =>
        simp [build, if_neg hbi, hc, boxInv, hio, isLiveObj_alloc_write]
    | none =>
        simp only [build, if_neg hbi, hc]
        simp [boxInv, hd, hio]

/-- `move_from_other` into an empty destination preserves the invariant of
the destination, given the source's invariant. -/
theorem mfo_boxInv (w : World) (dst src : Box)
    (hd : dst.data = none) (hio : dst.inlineObj = none)
    (hs : boxInv w src = true) :
    boxInv (move_from_other w dst src).1 (move_from_other w dst src).2.1
      = true := by
  cases hsd : src.data with
  | none => simp [move_from_other, hsd, boxInv, hd, hio]
  | some loc =>
      cases loc with
      | heap p =>
          simp only [boxInv, hsd, Bool.and_eq_true] at hs
          simp [move_from_other, hsd, boxInv, hio, hs.2]
      | inlineLoc =>
          simp only [boxInv, hsd, Option.isSome_iff_exists] at hs
          obtain ⟨pl, hpl⟩ := hs
          by_cases hbi : buildInline dst.storage_size dst.storage_align
              src.storage_size src.storage_align
          · simp [move_from_other, hsd, if_pos hbi, boxInv, move_to, hpl]
          · simp [move_from_other, hsd, if_neg hbi, boxInv, move_to, hpl,
              hio, isLiveObj_alloc_write]

/-- `reset` of one box keeps any non-aliasing box's invariant intact. -/
theorem boxInv_of_reset_other (w : World) (dst src : Box)
    (hs : boxInv w src = true) (hna : noAlias dst src = true) :
    boxInv (reset w dst).1 src = true := by
  cases hdd : dst.data with
  | none => cases dst; simp only [reset]; simp_all
  | some loc =>
      cases loc with
      | inlineLoc => cases dst; simp only [reset]; simp_all
      | heap q =>
          cases hsd : src.data with
          | none =>
              cases dst
              simp only [reset]
              simp_all [boxInv]
          | some sl =>
              cases sl with
              | inlineLoc =>
                  cases dst
                  simp only [reset]
                  simp_all [boxInv]
              | heap p =>
                  simp only [noAlias, hdd, hsd, ne_eq, bne_iff_ne] at hna
                  simp only [boxInv, hsd, Bool.and_eq_true] at hs ⊢
                  cases dst with
                  | mk ss sa io d =>
                      simp only at hdd
                      subst hdd
                      simp only [reset]
                      exact ⟨hs.1,
                        by rw [isLiveObj_heapFree_ne w p q
                            (fun hpq => hna (hpq ▸ rfl))]; exact hs.2⟩

/-- Every public constructor establishes the invariant. -/
theorem init_boxInv (s : World × Box) (h : Init s) : boxInv s.1 s.2 = true := by
  cases h with
  | initDefault w ss sa => simp [boxInv, mkBox]
  | initPtr w ss sa p hp => simp [boxInv, ctorPtr, hp]
  | initInPlace u ss sa w =>
      exact build_boxInv u w (mkBox ss sa) rfl rfl
  | initMove ss sa w src hsrc =>
      exact mfo_boxInv w (mkBox ss sa) src rfl rfl hsrc

/-- Every public operation preserves the invariant. -/
theorem step_boxInv (s t : World × Box) (h : boxInv s.1 s.2 = true)
    (hs : Step s t) : boxInv t.1 t.2 = true := by
  cases hs with
  | stepReset w b =>
      have he := reset_eq_mkBox w b h
      show boxInv (reset w b).1 (reset w b).2 = true
      rw [he]
      simp [boxInv, mkBox]
  | stepResetPtr w b p hp hna =>
      have he := reset_eq_mkBox w b h
      show boxInv (resetPtr w b p).1 (resetPtr w b p).2 = true
      simp only [resetPtr]
      rw [he]
      simp only [boxInv, mkBox, Option.isNone_none, Bool.true_and]
      rw [isLiveObj_reset w b p hna]
      exact hp
  | stepEmplace w b u =>
      have he := reset_eq_mkBox w b h
      show boxInv (emplace u w b).1 (emplace u w b).2.1 = true
      simp only [emplace]
      rw [he]
      exact build_boxInv u (reset w b).1 (mkBox b.storage_size b.storage_align)
        rfl rfl
  | stepRelease w b =>
      cases hbd : b.data with
      | none => simpa [release, hbd] using h
      | some loc =>
          cases loc with
          | heap p =>
              simp only [boxInv, hbd, Bool.and_eq_true] at h
              simp [release, hbd, boxInv, h.1]
          | inlineLoc => simp [release, hbd, boxInv, move_to]
  | stepMoveAssign w b src hsrc hna =>
      have he := reset_eq_mkBox w b h
      show boxInv (moveAssign w b src).1 (moveAssign w b src).2.1 = true
      simp only [moveAssign]
      rw [he]
      exact mfo_boxInv (reset w b).1 (mkBox b.storage_size b.storage_align)
        src rfl rfl (boxInv_of_reset_other w b src hsrc hna)

/-! ## Claims -/

/-- Claim C1: for every SmallUniquePtr box and every sequence of public
operations (default/nullptr/pointer/in-place construction, move construction,
move assignment, emplace, reset, release), the box holds at most one live
payload object at any time, and its data pointer is either null (the empty
sentinel) or points to a live object stored either in the box's inline buffer
or in a separate heap block, never both and never neither while non-null. -/
theorem box_invariant_holds_always (s t : World × Box) (hinit : Init s)
    (hsteps : Relation.ReflTransGen Step s t) : boxInv t.1 t.2 = true := by
  induction hsteps with
  | refl => exact init_boxInv s hinit
  | tail _ hstep ih => exact step_boxInv _ _ ih hstep

theorem box_invariant_holds_always_witness :
    boxInv ((emplace ⟨2, 1, some 9⟩ ⟨0, [], 0⟩ (mkBox 4 4)).1)
      ((emplace ⟨2, 1, some 9⟩ ⟨0, [], 0⟩ (mkBox 4 4)).2.1) = true :=
  box_invariant_holds_always (⟨0, [], 0⟩, mkBox 4 4)
    ((emplace ⟨2, 1, some 9⟩ ⟨0, [], 0⟩ (mkBox 4 4)).1,
     (emplace ⟨2, 1, some 9⟩ ⟨0, [], 0⟩ (mkBox 4 4)).2.1)
    (Init.initDefault ⟨0, [], 0⟩ 4 4)
    (Relation.ReflTransGen.single
      (Step.stepEmplace ⟨0, [], 0⟩ (mkBox 4 4) ⟨2, 1, some 9⟩))

/-- Claim C2: moving from a box whose payload is inline-stored, the
destination's storage is chosen by testing the source's inline capacity M
(`FromPtr::storage_size`, not the payload's exact size) and alignment against
the destination capacity N: inline exactly when `BuildInline<M, M_align>`
holds, heap otherwise (the heap block then has size M and costs one
allocation); the relocated payload's observable state is preserved in the
destination, and the source destroys its abandoned original and is empty. -/
theorem move_inline_source_storage_selection (w : World) (dst src : Box)
    (pl : Payload) (hsd : src.data = some Loc.inlineLoc)
    (hso : src.inlineObj = some pl) :
    (buildInline dst.storage_size dst.storage_align
        src.storage_size src.storage_align = true →
      is_inline (move_from_other w dst src).2.1 = true ∧
      (move_from_other w dst src).2.1.inlineObj = some pl ∧
      (move_from_other w dst src).1 = w) ∧
    (buildInline dst.storage_size dst.storage_align
        src.storage_size src.storage_align = false →
      is_allocated (move_from_other w dst src).2.1 = true ∧
      (move_from_other w dst src).2.1.data
        = some (Loc.heap (allocRaw w src.storage_size).2) ∧
      heapFind (move_from_other w dst src).1 (allocRaw w src.storage_size).2
        = some ⟨src.storage_size, some pl⟩ ∧
      (move_from_other w dst src).1.allocCount = w.allocCount + 1) ∧
    readValue (move_from_other w dst src).1 (move_from_other w dst src).2.1
      = some pl.value ∧
    (move_from_other w dst src).2.2.data = none ∧
    (move_from_other w dst src).2.2.inlineObj = none := by
  by_cases hbi : buildInline dst.storage_size dst.storage_align
      src.storage_size src.storage_align
  · refine ⟨fun _ => ?_, fun hc => absurd hbi (by simp [hc]), ?_, ?_, ?_⟩ <;>
      simp [move_from_other, hsd, if_pos hbi, move_to, hso, is_inline,
        readValue]
  · have hbf : buildInline dst.storage_size dst.storage_align
        src.storage_size src.storage_align = false := by
      simpa using hbi
    refine ⟨fun hc => absurd hc (by simp [hbf]), fun _ => ?_, ?_, ?_, ?_⟩ <;>
      simp [move_from_other, hsd, if_neg hbi, move_to, hso, is_allocated,
        is_inline, readValue, heapFind, heapWrite, allocRaw,
        findBlock_write_head]

theorem move_inline_source_storage_selection_witness :
    -- source capacity 8 does not fit destination capacity 4: heap path
    is_allocated (move_from_other ⟨0, [], 0⟩ (mkBox 4 4)
        ⟨8, 8, some ⟨2, 1, 5⟩, some Loc.inlineLoc⟩).2.1 = true ∧
    (move_from_other ⟨0, [], 0⟩ (mkBox 4 4)
        ⟨8, 8, some ⟨2, 1, 5⟩, some Loc.inlineLoc⟩).2.1.data
      = some (Loc.heap (allocRaw ⟨0, [], 0⟩ 8).2) ∧
    heapFind (move_from_other ⟨0, [], 0⟩ (mkBox 4 4)
        ⟨8, 8, some ⟨2, 1, 5⟩, some Loc.inlineLoc⟩).1
        (allocRaw ⟨0, [], 0⟩ 8).2
      = some ⟨8, some ⟨2, 1, 5⟩⟩ ∧
    (move_from_other ⟨0, [], 0⟩ (mkBox 4 4)
        ⟨8, 8, some ⟨2, 1, 5⟩, some Loc.inlineLoc⟩).1.allocCount = 0 + 1 :=
  (move_inline_source_storage_selection ⟨0, [], 0⟩ (mkBox 4 4)
    ⟨8, 8, some ⟨2, 1, 5⟩, some Loc.inlineLoc⟩ ⟨2, 1, 5⟩ rfl rfl).2.1
    (by decide)

/-- Claim C3: moving from a non-empty box whose payload is heap-stored, into
any destination, steals the raw pointer directly: the world is unchanged (no
allocation), the source's inline buffer is untouched (no relocation call),
pointer identity is preserved (destination's `get()` equals the source's
`get()` before the move), and the source becomes empty. -/
theorem move_heap_source_steals_pointer (w : World) (dst src : Box) (p : Ptr)
    (hsd : src.data = some (Loc.heap p)) :
    (move_from_other w dst src).1 = w ∧
    get (move_from_other w dst src).2.1 = get src ∧
    (move_from_other w dst src).2.1.data = some (Loc.heap p) ∧
    (move_from_other w dst src).2.2.data = none ∧
    (move_from_other w dst src).2.2.inlineObj = src.inlineObj := by
  simp [move_from_other, hsd, get]

theorem move_heap_source_steals_pointer_witness :
    (move_from_other ⟨3, [(2, ⟨8, some ⟨8, 4, 7⟩⟩)], 1⟩ (mkBox 4 4)
        ⟨16, 8, none, some (Loc.heap 2)⟩).1
      = ⟨3, [(2, ⟨8, some ⟨8, 4, 7⟩⟩)], 1⟩ ∧
    get (move_from_other ⟨3, [(2, ⟨8, some ⟨8, 4, 7⟩⟩)], 1⟩ (mkBox 4 4)
        ⟨16, 8, none, some (Loc.heap 2)⟩).2.1
      = get ⟨16, 8, none, some (Loc.heap 2)⟩ ∧
    (move_from_other ⟨3, [(2, ⟨8, some ⟨8, 4, 7⟩⟩)], 1⟩ (mkBox 4 4)
        ⟨16, 8, none, some (Loc.heap 2)⟩).2.1.data = some (Loc.heap 2) ∧
    (move_from_other ⟨3, [(2, ⟨8, some ⟨8, 4, 7⟩⟩)], 1⟩ (mkBox 4 4)
        ⟨16, 8, none, some (Loc.heap 2)⟩).2.2.data = none ∧
    (move_from_other ⟨3, [(2, ⟨8, some ⟨8, 4, 7⟩⟩)], 1⟩ (mkBox 4 4)
        ⟨16, 8, none, some (Loc.heap 2)⟩).2.2.inlineObj
      = (⟨16, 8, none, some (Loc.heap 2)⟩ : Box).inlineObj :=
  move_heap_source_steals_pointer ⟨3, [(2, ⟨8, some ⟨8, 4, 7⟩⟩)], 1⟩
    (mkBox 4 4) ⟨16, 8, none, some (Loc.heap 2)⟩ 2 rfl

/-- Claim C4: for in-place construction of a payload type U into a box of
inline capacity N, storage is inline exactly when `sizeof(U) <= N` and
`alignof(U) <=` the inline storage's alignment, heap otherwise; `data_` is
committed to the new object only on successful construction (on failure the
box is unchanged); in particular `sizeof(U) > N` forces
`is_allocated() == true`. -/
theorem build_storage_selection (u : PayloadType) (w : World) (b : Box) :
    (u.construct.isSome = true →
      (build u w b).2.2 = true ∧
      is_inline (build u w b).2.1
        = buildInline b.storage_size b.storage_align u.size u.align ∧
      readValue (build u w b).1 (build u w b).2.1 = u.construct) ∧
    (b.storage_size < u.size → u.construct.isSome = true →
      is_allocated (build u w b).2.1 = true) ∧
    (u.construct = none →
      (build u w b).2.1 = b ∧ (build u w b).2.2 = false) := by
  by_cases hbi : buildInline b.storage_size b.storage_align u.size u.align
  · cases hc : u.construct with
    | some v =>
        refine ⟨fun _ => ?_, fun hlt _ => ?_, fun hn => by simp_all⟩
        · simp [build, if_pos hbi, hc, is_inline, readValue, hbi]
        · exact absurd hbi (by simp [buildInline]; intro hle; omega)
    | none =>
        exact ⟨fun hs => by simp_all, fun _ hs => by simp_all,
          fun _ => by simp [build, if_pos hbi, hc]⟩
  · have hbf : buildInline b.storage_size b.storage_align u.size u.align
        = false := by simpa using hbi
    cases hc : u.construct with
    | some v =>
        refine ⟨fun _ => ?_, fun _ _ => ?_, fun hn => by simp_all⟩
        · refine ⟨by simp [build, if_neg hbi, hc], ?_, ?_⟩
          · simp [build, if_neg hbi, hc, is_inline, hbf]
          · simp [build, if_neg hbi, hc, readValue, heapFind, heapWrite,
              allocRaw, findBlock_write_head]
        · simp [build, if_neg hbi, hc, is_allocated, is_inline]
    | none =>
        exact ⟨fun hs => by simp_all, fun _ hs => by simp_all,
          fun _ => by simp [build, if_neg hbi, hc]⟩

theorem build_storage_selection_witness :
    ((build ⟨12, 4, some 3⟩ ⟨0, [], 0⟩ (mkBox 8 8)).2.2 = true ∧
      is_inline (build ⟨12, 4, some 3⟩ ⟨0, [], 0⟩ (mkBox 8 8)).2.1
        = buildInline 8 8 12 4 ∧
      readValue (build ⟨12, 4, some 3⟩ ⟨0, [], 0⟩ (mkBox 8 8)).1
        (build ⟨12, 4, some 3⟩ ⟨0, [], 0⟩ (mkBox 8 8)).2.1 = some 3) ∧
    is_allocated (build ⟨12, 4, some 3⟩ ⟨0, [], 0⟩ (mkBox 8 8)).2.1 = true :=
  ⟨(build_storage_selection ⟨12, 4, some 3⟩ ⟨0, [], 0⟩ (mkBox 8 8)).1
      (by decide),
   (build_storage_selection ⟨12, 4, some 3⟩ ⟨0, [], 0⟩ (mkBox 8 8)).2.1
      (by decide) (by decide)⟩

/-- Claim C5, counterexample: the claim "sizeof(U) <= N suffices for inline
storage" fails when U is over-aligned. Concrete input (realizable on x86-64,
where `aligned_storage<64>` has default alignment 16): capacity N = 64 with
storage alignment 16, payload type of size 64 and alignment 64 — the size
fits (64 <= 64) yet `BuildInline` rejects it on alignment and the payload is
heap-stored, so `is_inline()` is `false`, not `true`. -/
theorem inline_small_payload_counterexample :
    (PayloadType.mk 64 64 (some 0)).size ≤ 64 ∧
    (ctorInPlace ⟨64, 64, some 0⟩ 64 16 ⟨0, [], 0⟩).2.2 = true ∧
    is_inline (ctorInPlace ⟨64, 64, some 0⟩ 64 16 ⟨0, [], 0⟩).2.1 = false := by
  decide

/-- Claim C5, amended: for all payload types U with `sizeof(U) <= N` *and*
`alignof(U)` no larger than the inline storage's alignment, constructing a
box of inline capacity N in place with U yields `is_inline() == true`. -/
theorem inline_small_payload (u : PayloadType) (ss sa : Nat) (w : World)
    (hc : u.construct.isSome = true) (hsize : u.size ≤ ss)
    (halign : u.align ≤ sa) :
    is_inline (ctorInPlace u ss sa w).2.1 = true := by
  have hbi : buildInline ss sa u.size u.align = true := by
    simp [buildInline, hsize, halign]
  cases hcs : u.construct with
  | none => rw [hcs] at hc; simp at hc
  | some v =>
      simp [ctorInPlace, build, mkBox, hbi, hcs, is_inline]

theorem inline_small_payload_witness :
    is_inline (ctorInPlace ⟨8, 8, some 42⟩ 8 8 ⟨0, [], 0⟩).2.1 = true :=
  inline_small_payload ⟨8, 8, some 42⟩ 8 8 ⟨0, [], 0⟩ (by decide)
    (by decide) (by decide)

/-- Claim C6: `release()` on a non-empty box returns an owning raw pointer and
leaves the box empty (`operator bool` false). Heap-stored payload: the stored
pointer is returned directly with the world unchanged (no allocation, no
relocation). Inline-stored payload: the payload is first relocated via the
relocatable capability onto a freshly heap-allocated block of size
`storage_size` (one allocation), that heap pointer is returned, and the
returned block holds the payload independently of the box's inline buffer. -/
theorem release_nonempty (w : World) (b : Box) (hinv : boxInv w b = true)
    (hne : b.data ≠ none) :
    (release w b).2.1.data = none ∧
    (release w b).2.1.inlineObj = none ∧
    toBool (release w b).2.1 = false ∧
    (∀ p, b.data = some (Loc.heap p) →
      (release w b).2.2 = some p ∧ (release w b).1 = w) ∧
    (b.data = some Loc.inlineLoc →
      ∃ pl, b.inlineObj = some pl ∧
        (release w b).2.2 = some (allocRaw w b.storage_size).2 ∧
        heapFind (release w b).1 (allocRaw w b.storage_size).2
          = some ⟨b.storage_size, some pl⟩ ∧
        (release w b).1.allocCount = w.allocCount + 1) := by
  cases hbd : b.data with
  | none => exact absurd hbd hne
  | some loc =>
      cases loc with
      | heap p =>
          simp only [boxInv, hbd, Bool.and_eq_true,
            Option.isNone_iff_eq_none] at hinv
          refine ⟨?_, ?_, ?_, ?_, ?_⟩ <;>
            simp [release, hbd, toBool, hinv.1]
      | inlineLoc =>
          simp only [boxInv, hbd, Option.isSome_iff_exists] at hinv
          obtain ⟨pl, hpl⟩ := hinv
          refine ⟨?_, ?_, ?_, ?_, fun _ => ⟨pl, hpl, ?_, ?_, ?_⟩⟩ <;>
            simp [release, hbd, move_to, toBool, hpl, heapFind, heapWrite,
              allocRaw, findBlock_write_head]

theorem release_nonempty_witness :
    ∃ pl, (⟨4, 4, some ⟨2, 1, 6⟩, some Loc.inlineLoc⟩ : Box).inlineObj
        = some pl ∧
      (release ⟨0, [], 0⟩
          ⟨4, 4, some ⟨2, 1, 6⟩, some Loc.inlineLoc⟩).2.2
        = some (allocRaw ⟨0, [], 0⟩ 4).2 ∧
      heapFind (release ⟨0, [], 0⟩
          ⟨4, 4, some ⟨2, 1, 6⟩, some Loc.inlineLoc⟩).1
          (allocRaw ⟨0, [], 0⟩ 4).2
        = some ⟨4, some pl⟩ ∧
      (release ⟨0, [], 0⟩
          ⟨4, 4, some ⟨2, 1, 6⟩, some Loc.inlineLoc⟩).1.allocCount = 0 + 1 :=
  (release_nonempty ⟨0, [], 0⟩ ⟨4, 4, some ⟨2, 1, 6⟩, some Loc.inlineLoc⟩
    (by decide) (by decide)).2.2.2.2 rfl

/-- Claim C7: when a payload constructor signals failure, any storage acquired
for the attempt is released before the failure propagates (heap allocation
deallocated, inline nothing to free): the set of live heap blocks is exactly
what it was before the construction attempt, the box is left empty rather
than dangling, and the failure is surfaced to the caller (success flag
`false`), not swallowed. Stated for `emplace` (which also implements
reset-in-place) and for the in-place constructor. -/
theorem construction_failure_safety (u : PayloadType) (w : World) (b : Box)
    (ss sa : Nat) (hfail : u.construct = none) (hinv : boxInv w b = true) :
    ((emplace u w b).2.2 = false ∧
      (emplace u w b).1.heapLive = (reset w b).1.heapLive ∧
      (emplace u w b).2.1.data = none ∧
      (emplace u w b).2.1.inlineObj = none) ∧
    ((ctorInPlace u ss sa w).2.2 = false ∧
      (ctorInPlace u ss sa w).1.heapLive = w.heapLive ∧
      (ctorInPlace u ss sa w).2.1.data = none) := by
  have hkey : ∀ (w' : World) (b' : Box), b'.data = none →
      b'.inlineObj = none →
      (build u w' b').2.2 = false ∧
      (build u w' b').1.heapLive = w'.heapLive ∧
      (build u w' b').2.1.data = none ∧
      (build u w' b').2.1.inlineObj = none := by
    intro w' b' hd hio
    by_cases hbi : buildInline b'.storage_size b'.storage_align u.size u.align
    · simp [build, if_pos hbi, hfail, hd, hio]
    · simp [build, if_neg hbi, hfail, hd, hio, heapFree, allocRaw, eraseBlock]
  constructor
  · have he := reset_eq_mkBox w b hinv
    have := hkey (reset w b).1 (reset w b).2 (by rw [he]; rfl)
      (by rw [he]; rfl)
    simpa [emplace] using this
  · have := hkey w (mkBox ss sa) rfl rfl
    exact ⟨this.1, this.2.1, this.2.2.1⟩

theorem construction_failure_safety_witness :
    ((emplace ⟨2, 1, none⟩ ⟨0, [], 0⟩ (mkBox 4 4)).2.2 = false ∧
      (emplace ⟨2, 1, none⟩ ⟨0, [], 0⟩ (mkBox 4 4)).1.heapLive
        = (reset ⟨0, [], 0⟩ (mkBox 4 4)).1.heapLive ∧
      (emplace ⟨2, 1, none⟩ ⟨0, [], 0⟩ (mkBox 4 4)).2.1.data = none ∧
      (emplace ⟨2, 1, none⟩ ⟨0, [], 0⟩ (mkBox 4 4)).2.1.inlineObj = none) ∧
    ((ctorInPlace ⟨2, 1, none⟩ 1 1 ⟨0, [], 0⟩).2.2 = false ∧
      (ctorInPlace ⟨2, 1, none⟩ 1 1 ⟨0, [], 0⟩).1.heapLive = [] ∧
      (ctorInPlace ⟨2, 1, none⟩ 1 1 ⟨0, [], 0⟩).2.1.data = none) :=
  construction_failure_safety ⟨2, 1, none⟩ ⟨0, [], 0⟩ (mkBox 4 4) 1 1 rfl
    (by decide)

/-- Specification-side definition (spec section 4.2, step 4): move-assignment
described as "reset-then-move-construct" — destroy the current destination
payload, then move-construct a destination of the same capacity from the
source. Written from the spec's words, to be compared with `moveAssign`. -/
def moveAssignSpec (w : World) (dst src : Box) : World × Box × Box :=
  let r := reset w dst
  moveCtor dst.storage_size dst.storage_align r.1 src

/-- Specification-side definition (spec section 4.1): emplace described as
"destroy-current-then-construct-in-place" — destroy the current payload, then
construct in place into a box of the same capacity. Written from the spec's
words, to be compared with `emplace`. -/
def emplaceSpec (u : PayloadType) (w : World) (b : Box) :
    World × Box × Bool :=
  let r := reset w b
  ctorInPlace u b.storage_size b.storage_align r.1

/-- Claim C8: the composite operations equal their stated decompositions.
For every destination satisfying the box invariant, move-assignment produces
exactly the states of destroy-current (reset) followed by move-construction
from the source; and emplace of U produces exactly the state of
destroy-current followed by in-place construction of U. -/
theorem composite_operations_decompose (w : World) (dst src b : Box)
    (u : PayloadType) (hdst : boxInv w dst = true) (hb : boxInv w b = true) :
    moveAssign w dst src = moveAssignSpec w dst src ∧
    emplace u w b = emplaceSpec u w b := by
  constructor
  · simp only [moveAssign, moveAssignSpec, moveCtor]
    rw [reset_eq_mkBox w dst hdst]
  · simp only [emplace, emplaceSpec, ctorInPlace]
    rw [reset_eq_mkBox w b hb]

theorem composite_operations_decompose_witness :
    moveAssign ⟨0, [], 0⟩ ⟨4, 4, some ⟨2, 1, 5⟩, some Loc.inlineLoc⟩
        ⟨4, 4, some ⟨2, 1, 6⟩, some Loc.inlineLoc⟩
      = moveAssignSpec ⟨0, [], 0⟩ ⟨4, 4, some ⟨2, 1, 5⟩, some Loc.inlineLoc⟩
        ⟨4, 4, some ⟨2, 1, 6⟩, some Loc.inlineLoc⟩ ∧
    emplace ⟨2, 1, some 9⟩ ⟨0, [], 0⟩
        ⟨4, 4, some ⟨2, 1, 5⟩, some Loc.inlineLoc⟩
      = emplaceSpec ⟨2, 1, some 9⟩ ⟨0, [], 0⟩
        ⟨4, 4, some ⟨2, 1, 5⟩, some Loc.inlineLoc⟩ :=
  composite_operations_decompose ⟨0, [], 0⟩
    ⟨4, 4, some ⟨2, 1, 5⟩, some Loc.inlineLoc⟩
    ⟨4, 4, some ⟨2, 1, 6⟩, some Loc.inlineLoc⟩
    ⟨4, 4, some ⟨2, 1, 5⟩, some Loc.inlineLoc⟩
    ⟨2, 1, some 9⟩ (by decide) (by decide)

/-- After `move_from_other` the source's data pointer is null. -/
theorem mfo_source_empty (w : World) (dst src : Box) :
    (move_from_other w dst src).2.2.data
      = if src.data = none then src.data else none := by
  cases hsd : src.data with
  | none => simp [move_from_other, hsd]
  | some loc =>
      cases loc with
      | heap p => simp [move_from_other, hsd]
      | inlineLoc =>
          by_cases hbi : buildInline dst.storage_size dst.storage_align
              src.storage_size src.storage_align <;>
            simp [move_from_other, hsd, hbi, move_to]

/-- `move_from_other` into an empty destination preserves the source's
observable value, given the source's invariant. -/
theorem mfo_preserves_value (w : World) (dst src : Box) (v : Nat)
    (hs : boxInv w src = true) (hv : readValue w src = some v) :
    readValue (move_from_other w dst src).1
      (move_from_other w dst src).2.1 = some v := by
  cases hsd : src.data with
  | none => simp [readValue, hsd] at hv
  | some loc =>
      cases loc with
      | heap p => simpa [move_from_other, hsd, readValue] using hv
      | inlineLoc =>
          simp only [boxInv, hsd, Option.isSome_iff_exists] at hs
          obtain ⟨pl, hpl⟩ := hs
          simp only [readValue, hsd, hpl, Option.map_some] at hv
          by_cases hbi : buildInline dst.storage_size dst.storage_align
              src.storage_size src.storage_align
          · simpa [move_from_other, hsd, if_pos hbi, move_to, readValue,
              hpl] using hv
          · simpa [move_from_other, hsd, if_neg hbi, move_to, readValue,
              hpl, heapFind, heapWrite, allocRaw, findBlock_write_head]
              using hv

/-- The value read through a box does not change when another, non-aliasing
box is reset. -/
theorem readValue_reset_other (w : World) (dst src : Box)
    (hna : noAlias dst src = true) :
    readValue (reset w dst).1 src = readValue w src := by
  cases hdd : dst.data with
  | none => cases dst; simp only [reset]; simp_all
  | some loc =>
      cases loc with
      | inlineLoc => cases dst; simp only [reset]; simp_all
      | heap q =>
          cases hsd : src.data with
          | none =>
              cases dst
              simp only at hdd
              subst hdd
              simp [reset, readValue, hsd]
          | some sl =>
              cases sl with
              | inlineLoc =>
                  cases dst
                  simp only at hdd
                  subst hdd
                  simp [reset, readValue, hsd]
              | heap p =>
                  simp only [noAlias, hdd, hsd, bne_iff_ne, ne_eq] at hna
                  cases dst with
                  | mk ss sa io d =>
                      simp only at hdd
                      subst hdd
                      simp only [reset, readValue, hsd, heapFind, heapFree]
                      rw [findBlock_eraseBlock_ne w.heapLive p q
                        (fun hpq => hna (hpq ▸ rfl))]

/-- Claim C9: for move construction and move assignment, the source box is
always empty afterward (`get()` null, `operator bool` false); if the source
was empty, the destination ends empty; and a non-empty source's observable
payload value is reported by the destination afterward. For move assignment,
exclusive ownership (no aliasing) is assumed. -/
theorem move_source_empty_value_preserved (w : World) (dst src : Box)
    (ss sa : Nat) (hsrc : boxInv w src = true) (hdst : boxInv w dst = true)
    (hna : noAlias dst src = true) :
    ((moveCtor ss sa w src).2.2.data = none ∧
      get (moveCtor ss sa w src).2.2 = none ∧
      toBool (moveCtor ss sa w src).2.2 = false ∧
      (src.data = none → (moveCtor ss sa w src).2.1.data = none) ∧
      (∀ v, readValue w src = some v →
        readValue (moveCtor ss sa w src).1
          (moveCtor ss sa w src).2.1 = some v)) ∧
    ((moveAssign w dst src).2.2.data = none ∧
      get (moveAssign w dst src).2.2 = none ∧
      toBool (moveAssign w dst src).2.2 = false ∧
      (src.data = none → (moveAssign w dst src).2.1.data = none) ∧
      (∀ v, readValue w src = some v →
        readValue (moveAssign w dst src).1
          (moveAssign w dst src).2.1 = some v)) := by
  have hmk : ∀ (w' : World), boxInv w' src = true →
      (move_from_other w' (mkBox ss sa) src).2.2.data = none ∧
      (src.data = none →
        (move_from_other w' (mkBox ss sa) src).2.1.data = none) ∧
      (∀ v, readValue w' src = some v →
        readValue (move_from_other w' (mkBox ss sa) src).1
          (move_from_other w' (mkBox ss sa) src).2.1 = some v) := by
    intro w' hs
    refine ⟨?_, fun hn => ?_, fun v hv => mfo_preserves_value w' _ src v hs hv⟩
    · rw [mfo_source_empty]
      split <;> simp_all
    · simp [move_from_other, hn, mkBox]
  constructor
  · have h := hmk w hsrc
    exact ⟨h.1, by simp [moveCtor, get, h.1], by simp [moveCtor, toBool, h.1],
      h.2.1, h.2.2⟩
  · have hinv' : boxInv (reset w dst).1 src = true :=
      boxInv_of_reset_other w dst src hsrc hna
    have hemp : (moveAssign w dst src).2.2.data = none := by
      simp only [moveAssign]
      rw [mfo_source_empty]
      split <;> simp_all
    refine ⟨hemp, by simp [get, hemp], by simp [toBool, hemp], fun hn => ?_,
      fun v hv => ?_⟩
    · have he := reset_eq_mkBox w dst hdst
      simp only [moveAssign]
      rw [he]
      simp [move_from_other, hn, mkBox]
    · have he := reset_eq_mkBox w dst hdst
      simp only [moveAssign]
      rw [he]
      have hv' : readValue (reset w dst).1 src = some v := by
        rw [readValue_reset_other w dst src hna]; exact hv
      exact mfo_preserves_value (reset w dst).1 _ src v hinv' hv'

theorem move_source_empty_value_preserved_witness :
    -- spec scenario: two inline boxes holding 5 and 6; move-assign
    (moveAssign ⟨0, [], 0⟩ ⟨4, 4, some ⟨2, 1, 5⟩, some Loc.inlineLoc⟩
        ⟨4, 4, some ⟨2, 1, 6⟩, some Loc.inlineLoc⟩).2.2.data = none ∧
    readValue (moveAssign ⟨0, [], 0⟩
        ⟨4, 4, some ⟨2, 1, 5⟩, some Loc.inlineLoc⟩
        ⟨4, 4, some ⟨2, 1, 6⟩, some Loc.inlineLoc⟩).1
      (moveAssign ⟨0, [], 0⟩ ⟨4, 4, some ⟨2, 1, 5⟩, some Loc.inlineLoc⟩
        ⟨4, 4, some ⟨2, 1, 6⟩, some Loc.inlineLoc⟩).2.1 = some 6 :=
  ⟨(move_source_empty_value_preserved ⟨0, [], 0⟩
      ⟨4, 4, some ⟨2, 1, 5⟩, some Loc.inlineLoc⟩
      ⟨4, 4, some ⟨2, 1, 6⟩, some Loc.inlineLoc⟩ 4 4
      (by decide) (by decide) (by decide)).2.1,
   (move_source_empty_value_preserved ⟨0, [], 0⟩
      ⟨4, 4, some ⟨2, 1, 5⟩, some Loc.inlineLoc⟩
      ⟨4, 4, some ⟨2, 1, 6⟩, some Loc.inlineLoc⟩ 4 4
      (by decide) (by decide) (by decide)).2.2.2.2.2 6 (by decide)⟩

/-- Claim C10: on an empty box, `release()` returns the null pointer and
leaves box and world untouched (no allocation, relocation or destruction),
and `reset()` is a no-op (no double-destroy). -/
theorem empty_box_release_reset_noop (w : World) (b : Box)
    (h : b.data = none) :
    release w b = (w, b, none) ∧ reset w b = (w, b) := by
  constructor <;> simp [release, reset, h]

theorem empty_box_release_reset_noop_witness :
    release ⟨5, [(0, ⟨4, some ⟨4, 4, 1⟩⟩)], 2⟩ (mkBox 16 8)
      = (⟨5, [(0, ⟨4, some ⟨4, 4, 1⟩⟩)], 2⟩, mkBox 16 8, none) ∧
    reset ⟨5, [(0, ⟨4, some ⟨4, 4, 1⟩⟩)], 2⟩ (mkBox 16 8)
      = (⟨5, [(0, ⟨4, some ⟨4, 4, 1⟩⟩)], 2⟩, mkBox 16 8) :=
  empty_box_release_reset_noop ⟨5, [(0, ⟨4, some ⟨4, 4, 1⟩⟩)], 2⟩
    (mkBox 16 8) rfl

end Duck
